import Mathlib

/-
  Shallow embedding of src/core/remotes/docker/httpreadseeker.go.

  Connections (Go `io.ReadCloser` values) are modelled as deterministic
  scripted streams: each `Read` call on a connection consumes the next
  scripted event, an optional byte chunk followed by an optional error.
  The connection opener (`open func(offset int64) (io.ReadCloser, error)`)
  is modelled as a state-passing function over an arbitrary "world" type
  `W`, so that stateful openers (e.g. ones that fail a bounded number of
  times) can be expressed.  Machine integers (`int64`) are modelled as
  `Int`; byte counts as `Nat`.  Go errors become the inductive `Err`,
  with `fmt.Errorf("...: %w", e)` wrapping modelled by `Err.wrapped`
  tagged with the format-string site.
-/

namespace HttpReadSeeker

/-- Wrapping sites: one constructor per `fmt.Errorf` format string in the
source that wraps an underlying error with `%w`. -/
inductive Site where
  | cannotOpen
  | failedOpen
  | readAtClosed
  | readAtNegativeOffset
  | readAtCannotOpen
  | readAtFailedOpen (offset : Int)
  | seekClosed
  | seekUnknownSize
  | seekInvalidWhence
  | seekNegativeOffset
deriving DecidableEq, Repr

/-- Go error values relevant to the source: `io.EOF`, `io.ErrUnexpectedEOF`,
the `errdefs` sentinel classes, wrapped errors, and opaque foreign errors. -/
inductive Err where
  | eof
  | unexpectedEOF
  | unavailable
  | invalidArgument
  | notImplemented
  | wrapped (site : Site) (e : Err)
  | other (code : Nat)
deriving DecidableEq, Repr

/-- The sentinel at the bottom of a chain of wrapped errors, i.e. what Go's
`errors.Is` would match against. -/
def Err.base : Err → Err
  | .wrapped _ e => e.base
  | e => e

/-- One response of a connection to a `Read` call: the bytes delivered and
the error reported together with them (`nil` = `none`). -/
abbrev ReadEvent := List Nat × Option Err

/-- A modelled `io.ReadCloser`: a script of read responses, the error its
`Close` returns, and whether it has been closed. -/
structure Conn where
  script : List ReadEvent
  closeErr : Option Err := none
  isClosed : Bool := false
deriving DecidableEq, Repr

/-- One `Read(p)` call on a connection with `len(p) = bufLen`.  An exhausted
script keeps reporting a clean `io.EOF`.  If the next event holds more bytes
than the buffer, the buffer is filled and the remainder (with its pending
error) stays queued. -/
def Conn.read (c : Conn) (bufLen : Nat) : (List Nat × Option Err) × Conn :=
  match c.script with
  | [] => (([], some .eof), c)
  | (bs, e) :: rest =>
    if bufLen = 0 then (([], none), c)
    else if bs.length ≤ bufLen then ((bs, e), { c with script := rest })
    else ((bs.take bufLen, none), { c with script := (bs.drop bufLen, e) :: rest })

/-- `Close` on a connection: reports the scripted close error and marks the
connection closed. -/
def Conn.close (c : Conn) : Option Err × Conn :=
  (c.closeErr, { c with isClosed := true })

/-- Loop of Go's `io.ReadAtLeast` with `min = len(buf)` (as called by
`io.ReadFull`), specialised to scripted connections: keep reading until the
buffer is full or an error is reported.  `need` is the remaining free space
in the buffer; `acc` the bytes read so far. -/
def Conn.readFullLoop : List ReadEvent → Nat → List Nat → (List Nat × Option Err) × List ReadEvent
  | script, 0, acc => ((acc, none), script)
  | [], Nat.succ _, acc => ((acc, some .eof), [])
  | (bs, e) :: rest, Nat.succ m, acc =>
    if bs.length ≤ m + 1 then
      match e with
      | none => Conn.readFullLoop rest (m + 1 - bs.length) (acc ++ bs)
      | some err => ((acc ++ bs, some err), rest)
    else
      ((acc ++ bs.take (m + 1), none), (bs.drop (m + 1), e) :: rest)

/-- Go's `io.ReadFull(rc, p)` with `len(p) = bufLen`: read until the buffer
is full; a short read ending in `io.EOF` with some progress becomes
`io.ErrUnexpectedEOF`; a full buffer suppresses any error. -/
def Conn.readFull (c : Conn) (bufLen : Nat) : (List Nat × Option Err) × Conn :=
  let r := Conn.readFullLoop c.script bufLen []
  let bs := r.1.1
  let err :=
    if bufLen ≤ bs.length then none
    else if 0 < bs.length ∧ r.1.2 = some .eof then some .unexpectedEOF
    else r.1.2
  ((bs, err), { c with script := r.2 })

/-- `const maxRetry = 3` from the source. -/
def maxRetry : Nat := 3

/-- The `httpReadSeeker` struct.  `size = -1` is the unknown-size sentinel;
`rc` is the held connection; `opener` is the Go `open` field (a possibly
absent capability, stateful over the world `W`); `errsWithNoProgress`
counts consecutive zero-progress truncations. -/
structure httpReadSeeker (W : Type) where
  size : Int
  offset : Int
  rc : Option Conn
  opener : Option (W → Int → Except Err Conn × W)
  closed : Bool
  errsWithNoProgress : Nat

/-- `newHTTPReadSeeker` from the source (its error result is always nil, so
only the struct is returned here): offset 0, no connection, not closed. -/
def newHTTPReadSeeker {W : Type} (size : Int)
    (opener : Option (W → Int → Except Err Conn × W)) : httpReadSeeker W :=
  { size := size, offset := 0, rc := none, opener := opener, closed := false,
    errsWithNoProgress := 0 }

/-- The synthetic empty tail stream from the source:
`io.NopCloser(bytes.NewReader([]byte\x7b\x7d))` — zero bytes, clean EOF,
close never fails. -/
def emptyBodyConn : Conn := { script := [] }

variable {W : Type}

/-- The internal `reader()` helper.  Returns the connection that `Read`
will use; on success that same connection is also stored in `rc`.  The Go
code's close of a stale `hrs.rc` before storing the fresh one (lines
192–196) is unreachable, since this branch runs only when `hrs.rc == nil`,
and is therefore not modelled. -/
def httpReadSeeker.reader (hrs : httpReadSeeker W) (w : W) :
    Except Err Conn × httpReadSeeker W × W :=
  match hrs.rc with
  | some c => (.ok c, hrs, w)
  | none =>
    if hrs.size = -1 ∨ hrs.offset < hrs.size then
      match hrs.opener with
      | none => (.error (.wrapped .cannotOpen .notImplemented), hrs, w)
      | some op =>
        match op w hrs.offset with
        | (.error err, w') => (.error (.wrapped .failedOpen err), hrs, w')
        | (.ok rc, w') => (.ok rc, { hrs with rc := some rc }, w')
    else
      (.ok emptyBodyConn, { hrs with rc := some emptyBodyConn }, w)

/-- The tail of `Read` after the raw `rd.Read(p)` call: the stall-counter
reset, and the `switch err` on `io.ErrUnexpectedEOF` / `io.EOF` / default.
`hrs` is the state with `offset` already advanced and the connection's
post-read state already stored back in `rc`; `bs`/`err` are the raw read's
results.  Close errors of replaced connections are only logged in the
source and so do not appear in results here. -/
def httpReadSeeker.readFinish (hrs : httpReadSeeker W) (w : W) (bs : List Nat)
    (err : Option Err) : (List Nat × Option Err) × httpReadSeeker W × W :=
  let hrs0 := if 0 < bs.length ∨ err = none then { hrs with errsWithNoProgress := 0 } else hrs
  match err with
  | some .unexpectedEOF =>
    -- connection closed unexpectedly: bounded retry via reconnect
    let hrs1 := if bs.length = 0 then
      { hrs0 with errsWithNoProgress := hrs0.errsWithNoProgress + 1 } else hrs0
    if bs.length = 0 ∧ maxRetry < hrs1.errsWithNoProgress then
      ((bs, some .unexpectedEOF), hrs1, w)
    else
      let hrs2 := { hrs1 with rc := none }
      match hrs2.reader w with
      | (.ok _, hrs3, w') => ((bs, none), hrs3, w')
      | (.error _, hrs3, w') => ((bs, some .unexpectedEOF), hrs3, w')
  | some .eof =>
    -- clean end of stream: close the connection promptly and report EOF
    ((bs, some .eof), { hrs0 with rc := none }, w)
  | _ => ((bs, err), hrs0, w)

/-- `Read(p)` with `len(p) = bufLen`: returns the bytes delivered to the
caller, the error, and the updated reader and world. -/
def httpReadSeeker.read (hrs : httpReadSeeker W) (w : W) (bufLen : Nat) :
    (List Nat × Option Err) × httpReadSeeker W × W :=
  if hrs.closed then (([], some .eof), hrs, w)
  else
    match hrs.reader w with
    | (.error e, hrs1, w1) => (([], some e), hrs1, w1)
    | (.ok rd, hrs1, w1) =>
      let r := rd.read bufLen
      httpReadSeeker.readFinish
        { hrs1 with rc := some r.2, offset := hrs1.offset + (r.1.1.length : Int) }
        w1 r.1.1 r.1.2

/-- `Close()`: idempotent; the first call marks the reader closed and closes
the held connection, returning that connection's close error.  The `rc`
field itself is not cleared by the source. -/
def httpReadSeeker.close (hrs : httpReadSeeker W) : Option Err × httpReadSeeker W :=
  if hrs.closed then (none, hrs)
  else
    let hrs1 := { hrs with closed := true }
    match hrs1.rc with
    | some c =>
      let r := c.close
      (r.1, { hrs1 with rc := some r.2 })
    | none => (none, hrs1)

/-- `ReadAt(p, offset)` with `len(p) = bufLen`.  The reader state is
returned unchanged (the Go method never assigns to the struct); the last
component is the final state of the private connection (`none` when no
connection was opened), whose close error is only logged. -/
def httpReadSeeker.readAt (hrs : httpReadSeeker W) (w : W) (bufLen : Nat) (offset : Int) :
    (List Nat × Option Err) × httpReadSeeker W × W × Option Conn :=
  if hrs.closed then
    (([], some (.wrapped .readAtClosed .unavailable)), hrs, w, none)
  else if offset < 0 then
    (([], some (.wrapped .readAtNegativeOffset .invalidArgument)), hrs, w, none)
  else if hrs.size ≠ -1 ∧ hrs.size ≤ offset then
    (([], some .eof), hrs, w, none)
  else
    match hrs.opener with
    | none => (([], some (.wrapped .readAtCannotOpen .notImplemented)), hrs, w, none)
    | some op =>
      match op w offset with
      | (.error err, w') =>
        (([], some (.wrapped (.readAtFailedOpen offset) err)), hrs, w', none)
      | (.ok rc, w') =>
        let r := rc.readFull bufLen
        (r.1, hrs, w', some (r.2.close).2)

/-- `Seek(offset, whence)`, with `whence` the Go `io.SeekStart = 0`,
`io.SeekCurrent = 1`, `io.SeekEnd = 2` constants.  Returns the new absolute
offset or the error, plus the updated reader. -/
def httpReadSeeker.seek (hrs : httpReadSeeker W) (offset : Int) (whence : Int) :
    Except Err Int × httpReadSeeker W :=
  if hrs.closed then (.error (.wrapped .seekClosed .unavailable), hrs)
  else
    let absRes : Except Err Int :=
      if whence = 0 then .ok offset
      else if whence = 1 then .ok (hrs.offset + offset)
      else if whence = 2 then
        if hrs.size = -1 then .error (.wrapped .seekUnknownSize .unavailable)
        else .ok (hrs.size + offset)
      else .error (.wrapped .seekInvalidWhence .invalidArgument)
    match absRes with
    | .error e => (.error e, hrs)
    | .ok abs =>
      if abs < 0 then (.error (.wrapped .seekNegativeOffset .invalidArgument), hrs)
      else if abs ≠ hrs.offset then
        (.ok abs, { hrs with rc := none, offset := abs })
      else
        (.ok hrs.offset, hrs)

/-- Driver for repeated sequential reads, in the shape of Go's `io.ReadAll`
loop over `Read`: keep calling `Read` with a `bufLen`-byte buffer, appending
the bytes, until an error is reported; `io.EOF` is success (`none`).  `fuel`
bounds the number of calls; exhausted fuel is reported as `Err.other 0`. -/
def readAll : Nat → httpReadSeeker W → W → Nat → List Nat →
    (List Nat × Option Err) × httpReadSeeker W × W
  | 0, hrs, w, _, acc => ((acc, some (.other 0)), hrs, w)
  | fuel + 1, hrs, w, bufLen, acc =>
    match hrs.read w bufLen with
    | ((bs, none), hrs', w') => readAll fuel hrs' w' bufLen (acc ++ bs)
    | ((bs, some e), hrs', w') =>
      if e = .eof then ((acc ++ bs, none), hrs', w')
      else ((acc ++ bs, some e), hrs', w')

/-- A connection that immediately reports an unexpected truncation with zero
bytes of progress. -/
def truncConn : Conn := { script := [([], some .unexpectedEOF)] }

/-- A healthy connection serving the blob `content` from byte `offset` and
then reporting a clean EOF. -/
def contentConn (content : List Nat) (offset : Int) : Conn :=
  { script := [(content.drop offset.toNat, none)] }

/-- Scenario opener for the bounded-retry claim, over the world
`(failsLeft, calls)`: the first `failsLeft` open calls yield
immediately-truncating connections, every later call yields a healthy
connection; `calls` counts opener invocations. -/
def flakyOpen (content : List Nat) (st : Nat × Nat) (off : Int) :
    Except Err Conn × (Nat × Nat) :=
  if st.1 = 0 then (.ok (contentConn content off), (0, st.2 + 1))
  else (.ok truncConn, (st.1 - 1, st.2 + 1))

/-- Reader over the flaky opener, with unknown size. -/
def flakyHRS (content : List Nat) : httpReadSeeker (Nat × Nat) :=
  newHTTPReadSeeker (-1) (some (flakyOpen content))

/-- Scenario opener whose first call yields an immediately-truncating
connection and whose second call (the reconnect attempt) itself fails; the
world counts opener invocations. -/
def failingReconnectOpen (n : Nat) (_off : Int) : Except Err Conn × Nat :=
  if n = 0 then (.ok truncConn, 1) else (.error (.other 7), n + 1)

/-! Helper lemmas about the internal `reader()` and the `Read` tail. -/

theorem reader_offset (hrs : httpReadSeeker W) (w : W) :
    ((hrs.reader w).2.1).offset = hrs.offset := by
  unfold httpReadSeeker.reader
  repeat' split
  all_goals rfl

theorem reader_closed (hrs : httpReadSeeker W) (w : W) :
    ((hrs.reader w).2.1).closed = hrs.closed := by
  unfold httpReadSeeker.reader
  repeat' split
  all_goals rfl

theorem reader_errs (hrs : httpReadSeeker W) (w : W) :
    ((hrs.reader w).2.1).errsWithNoProgress = hrs.errsWithNoProgress := by
  unfold httpReadSeeker.reader
  repeat' split
  all_goals rfl

theorem reader_error_ne_eof (hrs : httpReadSeeker W) (w : W) (e : Err)
    (h : (hrs.reader w).1 = .error e) : e ≠ .eof := by
  unfold httpReadSeeker.reader at h
  repeat' split at h
  all_goals first
  | (simp at h; subst h; simp)
  | simp at h

theorem readFinish_offset (hrs : httpReadSeeker W) (w : W) (bs : List Nat) (err : Option Err) :
    ((httpReadSeeker.readFinish hrs w bs err).2.1).offset = hrs.offset := by
  simp only [httpReadSeeker.readFinish]
  repeat' split
  all_goals
    first
    | rfl
    | (rename_i heq
       have h1 := congrArg (fun p => (p.2.1).offset) heq
       simp only [reader_offset] at h1
       simp_all)

theorem readFinish_closed (hrs : httpReadSeeker W) (w : W) (bs : List Nat) (err : Option Err) :
    ((httpReadSeeker.readFinish hrs w bs err).2.1).closed = hrs.closed := by
  simp only [httpReadSeeker.readFinish]
  repeat' split
  all_goals
    first
    | rfl
    | (rename_i heq
       have h1 := congrArg (fun p => (p.2.1).closed) heq
       simp only [reader_closed] at h1
       simp_all)

theorem readFinish_bytes (hrs : httpReadSeeker W) (w : W) (bs : List Nat) (err : Option Err) :
    (httpReadSeeker.readFinish hrs w bs err).1.1 = bs := by
  simp only [httpReadSeeker.readFinish]
  repeat' split
  all_goals rfl

theorem readFinish_eof_rc (hrs : httpReadSeeker W) (w : W) (bs : List Nat) (err : Option Err)
    (h : (httpReadSeeker.readFinish hrs w bs err).1.2 = some .eof) :
    ((httpReadSeeker.readFinish hrs w bs err).2.1).rc = none := by
  rcases err with _ | e
  · simp [httpReadSeeker.readFinish] at h
  · cases e
    case eof => rfl
    all_goals (simp only [httpReadSeeker.readFinish] at h; repeat' split at h)
    all_goals exact absurd h (by simp)

/-- Opener that always succeeds with a fixed connection; the world counts
opener invocations. -/
def countingOpen (c : Conn) : Nat → Int → Except Err Conn × Nat :=
  fun n _ => (.ok c, n + 1)

/-! Claim theorems. -/

/-- C2: every sequential `Read` call on an open Reader advances `offset` by
exactly the number of bytes it returns (hence by the cumulative bytes across
calls), and a `Read` that reports the clean end-of-stream signal has closed
the held connection and set it to none before returning. -/
theorem c2_read_advances_offset_and_eof_releases (hrs : httpReadSeeker W) (w : W)
    (bufLen : Nat) (hopen : hrs.closed = false) :
    ((hrs.read w bufLen).2.1).offset
        = hrs.offset + (((hrs.read w bufLen).1.1).length : Int) ∧
    ((hrs.read w bufLen).1.2 = some .eof → ((hrs.read w bufLen).2.1).rc = none) := by
  unfold httpReadSeeker.read
  rw [hopen]
  simp only [Bool.false_eq_true, if_false]
  rcases hr : hrs.reader w with ⟨res, hrs1, w1⟩
  have hoff : hrs.offset = hrs1.offset := by
    have h1 := congrArg (fun p => (p.2.1).offset) hr
    simpa only [reader_offset] using h1
  rcases res with e | rd
  · refine ⟨by simp [hoff], fun he => ?_⟩
    exfalso
    refine reader_error_ne_eof hrs w e ?_ ?_
    · rw [hr]
    · simpa using he
  · refine ⟨?_, fun he => readFinish_eof_rc _ _ _ _ he⟩
    rw [readFinish_offset, readFinish_bytes]
    simp [hoff]

/-- A reader at the end of its known size holding an exhausted connection,
so that the next `Read` reports a clean end-of-stream. -/
def tailDemo : httpReadSeeker Unit :=
  { size := 5
    offset := 5
    rc := some { script := [] }
    opener := none
    closed := false
    errsWithNoProgress := 0 }

/-- Witness for c2 at a concrete open reader whose read reports EOF. -/
theorem c2_witness :
    ((tailDemo.read () 2).2.1).offset
        = tailDemo.offset + ((((tailDemo.read () 2).1.1).length : Int)) ∧
    ((tailDemo.read () 2).2.1).rc = none :=
  ⟨(c2_read_advances_offset_and_eof_releases tailDemo () 2 rfl).1,
   (c2_read_advances_offset_and_eof_releases tailDemo () 2 rfl).2 rfl⟩

/-- C6: when the size is known, the offset has reached or passed it, and no
connection is held, a sequential `Read` does not invoke the opener (the
world is untouched, for any opener) and returns end-of-stream with zero
bytes, leaving the reader state unchanged. -/
theorem c6_empty_tail_read (hrs : httpReadSeeker W) (w : W) (bufLen : Nat)
    (hopen : hrs.closed = false) (hrc : hrs.rc = none)
    (hknown : hrs.size ≠ -1) (hend : hrs.size ≤ hrs.offset) :
    hrs.read w bufLen = (([], some .eof), hrs, w) := by
  have hcond : ¬(hrs.size = -1 ∨ hrs.offset < hrs.size) := by
    rintro (h | h)
    · exact hknown h
    · omega
  obtain ⟨size, offset, rc, opener, closed, errs⟩ := hrs
  dsimp only at hopen hrc hcond
  subst hopen hrc
  unfold httpReadSeeker.read httpReadSeeker.reader
  simp only [Bool.false_eq_true, if_false, if_neg hcond]
  show httpReadSeeker.readFinish _ _ _ _ = _
  unfold httpReadSeeker.readFinish
  simp [emptyBodyConn, Conn.read]

/-- Witness for c6: the spec scenario with size 100 after `Seek(0, end)`. -/
theorem c6_witness :
    (((newHTTPReadSeeker 100 (some (countingOpen (contentConn [] 0)))).seek 0 2).2).read 5 10
      = (([], some .eof),
         ((newHTTPReadSeeker 100 (some (countingOpen (contentConn [] 0)))).seek 0 2).2, 5) :=
  c6_empty_tail_read _ 5 10 (by decide) (by decide) (by decide) (by decide)

/-- C7: `Close` is idempotent: the first call marks the Reader closed and
propagates the held connection's close error (none when no connection is
held); a second `Close` returns no error and changes nothing; a `Read`
after `Close` returns zero bytes with the end-of-stream signal and no
failure, changing nothing. -/
theorem c7_close_idempotent (hrs : httpReadSeeker W) (w : W) (bufLen : Nat)
    (hopen : hrs.closed = false) :
    ((hrs.close).2).closed = true ∧
    (hrs.rc = none → (hrs.close).1 = none) ∧
    (∀ c, hrs.rc = some c → (hrs.close).1 = c.closeErr) ∧
    ((hrs.close).2).close = (none, (hrs.close).2) ∧
    ((hrs.close).2).read w bufLen = (([], some .eof), (hrs.close).2, w) := by
  obtain ⟨size, offset, rc, opener, closed, errs⟩ := hrs
  simp only at hopen
  subst hopen
  rcases rc with _ | c
  all_goals simp [httpReadSeeker.close, httpReadSeeker.read, Conn.close]

/-- Witness for c7 at a concrete open reader holding a connection. -/
def closeDemo : httpReadSeeker Unit :=
  { size := 4
    offset := 1
    rc := some { script := [], closeErr := some (.other 3) }
    opener := none
    closed := false
    errsWithNoProgress := 0 }

theorem c7_witness :
    ((closeDemo.close).2).closed = true ∧
    (closeDemo.close).1 = some (.other 3) ∧
    ((closeDemo.close).2).close = (none, (closeDemo.close).2) ∧
    ((closeDemo.close).2).read () 7 = (([], some .eof), (closeDemo.close).2, ()) :=
  ⟨(c7_close_idempotent closeDemo () 7 rfl).1,
   (c7_close_idempotent closeDemo () 7 rfl).2.2.1
     { script := [], closeErr := some (.other 3) } rfl,
   (c7_close_idempotent closeDemo () 7 rfl).2.2.2.1,
   (c7_close_idempotent closeDemo () 7 rfl).2.2.2.2⟩

/-- C10: a clean end-of-stream is not terminal: with no held connection, the
size unknown or the offset still below the known size, the next `Read`
invokes the opener at the current offset and continues reading from the
fresh connection it yields. -/
theorem c10_eof_not_terminal (hrs : httpReadSeeker W) (w w' : W) (bufLen : Nat)
    (op : W → Int → Except Err Conn × W) (c c' : Conn) (bs : List Nat)
    (hopen : hrs.closed = false) (hrc : hrs.rc = none)
    (hcan : hrs.size = -1 ∨ hrs.offset < hrs.size)
    (hop : hrs.opener = some op)
    (hcall : op w hrs.offset = (.ok c, w'))
    (hread : c.read bufLen = ((bs, none), c')) :
    hrs.read w bufLen
      = ((bs, none),
         { hrs with
             rc := some c'
             offset := hrs.offset + (bs.length : Int)
             errsWithNoProgress := 0 }, w') := by
  unfold httpReadSeeker.read httpReadSeeker.reader
  rw [hopen, hrc, hop]
  simp only [Bool.false_eq_true, if_false, if_pos hcan, hcall, hread]
  unfold httpReadSeeker.readFinish
  simp

/-- Witness for c10 at a concrete reader and opener. -/
theorem c10_witness :
    (newHTTPReadSeeker (-1) (some (countingOpen (contentConn [9, 8] 0)))).read 0 5
      = (([9, 8], none),
         { size := -1
           offset := 0 + ((2 : Nat) : Int)
           rc := some { script := [] }
           opener := some (countingOpen (contentConn [9, 8] 0))
           closed := false
           errsWithNoProgress := 0 }, 1) :=
  c10_eof_not_terminal (newHTTPReadSeeker (-1) (some (countingOpen (contentConn [9, 8] 0))))
    0 1 5 (countingOpen (contentConn [9, 8] 0))
    (contentConn [9, 8] 0) { script := [] } [9, 8]
    rfl rfl (Or.inl rfl) rfl rfl (by decide)

/-- C4: `ReadAt` validates its inputs in order: on a closed Reader it fails
with Unavailable, checked before the offset check; then a negative offset
fails with InvalidArgument; then, size known and `offset ≥ size` yields
end-of-stream with zero bytes and no failure; then a missing opener fails
with NotImplemented. -/
theorem c4_readAt_validation_order (hrs : httpReadSeeker W) (w : W) (bufLen : Nat)
    (off : Int) :
    (hrs.closed = true →
      hrs.readAt w bufLen off
        = (([], some (.wrapped .readAtClosed .unavailable)), hrs, w, none)) ∧
    (hrs.closed = false → off < 0 →
      hrs.readAt w bufLen off
        = (([], some (.wrapped .readAtNegativeOffset .invalidArgument)), hrs, w, none)) ∧
    (hrs.closed = false → 0 ≤ off → hrs.size ≠ -1 → hrs.size ≤ off →
      hrs.readAt w bufLen off = (([], some .eof), hrs, w, none)) ∧
    (hrs.closed = false → 0 ≤ off → (hrs.size = -1 ∨ off < hrs.size) → hrs.opener = none →
      hrs.readAt w bufLen off
        = (([], some (.wrapped .readAtCannotOpen .notImplemented)), hrs, w, none)) := by
  refine ⟨fun hc => ?_, fun hc hneg => ?_, fun hc hnn hk hge => ?_,
    fun hc hnn hlt hop => ?_⟩
  · unfold httpReadSeeker.readAt
    rw [hc]
    simp
  · unfold httpReadSeeker.readAt
    rw [hc]
    simp [hneg]
  · unfold httpReadSeeker.readAt
    rw [hc]
    simp only [Bool.false_eq_true, if_false]
    rw [if_neg (by omega), if_pos ⟨hk, hge⟩]
  · have hcond : ¬(hrs.size ≠ -1 ∧ hrs.size ≤ off) := by
      rcases hlt with h | h
      · simp [h]
      · intro hh
        omega
    unfold httpReadSeeker.readAt
    rw [hc, hop]
    simp only [Bool.false_eq_true, if_false]
    rw [if_neg (by omega), if_neg hcond]

/-- A concrete closed reader. -/
def closedDemo : httpReadSeeker Unit :=
  { size := 10
    offset := 0
    rc := none
    opener := none
    closed := true
    errsWithNoProgress := 0 }

/-- A concrete open reader of known size 10 with no opener capability. -/
def openDemo : httpReadSeeker Unit :=
  { size := 10
    offset := 0
    rc := none
    opener := none
    closed := false
    errsWithNoProgress := 0 }

/-- Witness for c4 at concrete readers and offsets. -/
theorem c4_witness :
    closedDemo.readAt () 3 (-5)
      = (([], some (.wrapped .readAtClosed .unavailable)), closedDemo, (), none) ∧
    openDemo.readAt () 3 (-5)
      = (([], some (.wrapped .readAtNegativeOffset .invalidArgument)), openDemo, (), none) ∧
    openDemo.readAt () 3 20 = (([], some .eof), openDemo, (), none) ∧
    openDemo.readAt () 3 5
      = (([], some (.wrapped .readAtCannotOpen .notImplemented)), openDemo, (), none) :=
  ⟨(c4_readAt_validation_order closedDemo () 3 (-5)).1 rfl,
   (c4_readAt_validation_order openDemo () 3 (-5)).2.1 rfl (by decide),
   (c4_readAt_validation_order openDemo () 3 20).2.2.1 rfl (by decide) (by decide) (by decide),
   (c4_readAt_validation_order openDemo () 3 5).2.2.2 rfl (by decide) (Or.inr (by decide)) rfl⟩

/-- C5: `Seek` on an open Reader computes the absolute position from the
whence anchor (start: offset; current: current position plus offset; end:
known size plus offset, Unavailable when the size is unknown), fails with
InvalidArgument for an unrecognized whence or a negative computed position,
returns the resulting absolute offset, is a connection-preserving no-op
when the target equals the current offset, and otherwise discards the held
connection and updates the offset. -/
theorem c5_seek_anchors (hrs : httpReadSeeker W) (off : Int) (whence : Int)
    (hopen : hrs.closed = false) :
    (0 ≤ off → off = hrs.offset → hrs.seek off 0 = (.ok hrs.offset, hrs)) ∧
    (0 ≤ off → off ≠ hrs.offset →
      hrs.seek off 0 = (.ok off, { hrs with rc := none, offset := off })) ∧
    (off < 0 → hrs.seek off 0 = (.error (.wrapped .seekNegativeOffset .invalidArgument), hrs)) ∧
    (0 ≤ hrs.offset + off → off = 0 → hrs.seek off 1 = (.ok hrs.offset, hrs)) ∧
    (0 ≤ hrs.offset + off → off ≠ 0 →
      hrs.seek off 1
        = (.ok (hrs.offset + off), { hrs with rc := none, offset := hrs.offset + off })) ∧
    (hrs.offset + off < 0 →
      hrs.seek off 1 = (.error (.wrapped .seekNegativeOffset .invalidArgument), hrs)) ∧
    (hrs.size = -1 →
      hrs.seek off 2 = (.error (.wrapped .seekUnknownSize .unavailable), hrs)) ∧
    (hrs.size ≠ -1 → 0 ≤ hrs.size + off → hrs.size + off = hrs.offset →
      hrs.seek off 2 = (.ok hrs.offset, hrs)) ∧
    (hrs.size ≠ -1 → 0 ≤ hrs.size + off → hrs.size + off ≠ hrs.offset →
      hrs.seek off 2
        = (.ok (hrs.size + off), { hrs with rc := none, offset := hrs.size + off })) ∧
    (hrs.size ≠ -1 → hrs.size + off < 0 →
      hrs.seek off 2 = (.error (.wrapped .seekNegativeOffset .invalidArgument), hrs)) ∧
    (whence ≠ 0 → whence ≠ 1 → whence ≠ 2 →
      hrs.seek off whence = (.error (.wrapped .seekInvalidWhence .invalidArgument), hrs)) := by
  refine ⟨?_, ?_, ?_, ?_, ?_, ?_, ?_, ?_, ?_, ?_, ?_⟩ <;> intros
  all_goals unfold httpReadSeeker.seek
  all_goals rw [hopen]
  all_goals simp only [Bool.false_eq_true, if_false]
  all_goals repeat' split
  all_goals first
  | rfl
  | omega
  | (exfalso; omega)
  | simp_all
  all_goals omega

/-- A concrete open reader of known size 10, offset 5, holding a live
connection. -/
def seekDemo : httpReadSeeker Unit :=
  { size := 10
    offset := 5
    rc := some { script := [([1], none)] }
    opener := none
    closed := false
    errsWithNoProgress := 0 }

/-- A concrete open reader of unknown size. -/
def seekDemoU : httpReadSeeker Unit :=
  { size := -1
    offset := 0
    rc := none
    opener := none
    closed := false
    errsWithNoProgress := 0 }

/-- Witness for c5 at concrete readers, offsets and whence values. -/
theorem c5_witness :
    seekDemo.seek 5 0 = (.ok 5, seekDemo) ∧
    seekDemo.seek 7 0 = (.ok 7, { seekDemo with rc := none, offset := 7 }) ∧
    seekDemo.seek (-1) 0 = (.error (.wrapped .seekNegativeOffset .invalidArgument), seekDemo) ∧
    seekDemoU.seek 3 2 = (.error (.wrapped .seekUnknownSize .unavailable), seekDemoU) ∧
    seekDemo.seek 3 9 = (.error (.wrapped .seekInvalidWhence .invalidArgument), seekDemo) :=
  ⟨(c5_seek_anchors seekDemo 5 0 rfl).1 (by decide) (by decide),
   (c5_seek_anchors seekDemo 7 0 rfl).2.1 (by decide) (by decide),
   (c5_seek_anchors seekDemo (-1) 0 rfl).2.2.1 (by decide),
   (c5_seek_anchors seekDemoU 3 2 rfl).2.2.2.2.2.2.1 rfl,
   (c5_seek_anchors seekDemo 3 9 rfl).2.2.2.2.2.2.2.2.2.2 (by decide) (by decide) (by decide)⟩

/-! Properties of `io.ReadFull` over scripted connections, needed for the
`ReadAt` full-buffer-or-error contract. -/

theorem readFullLoop_length_le (script : List ReadEvent) (need : Nat) (acc : List Nat) :
    ((Conn.readFullLoop script need acc).1.1).length ≤ acc.length + need := by
  induction script generalizing need acc with
  | nil =>
    cases need with
    | zero => simp [Conn.readFullLoop]
    | succ m => simp [Conn.readFullLoop]
  | cons ev rest ih =>
    cases need with
    | zero => simp [Conn.readFullLoop]
    | succ m =>
      obtain ⟨bs, e⟩ := ev
      simp only [Conn.readFullLoop]
      split
      · rcases e with _ | err
        · dsimp only
          have h1 := ih (m + 1 - bs.length) (acc ++ bs)
          simp only [List.length_append] at h1
          omega
        · dsimp only
          simp only [List.length_append]
          omega
      · dsimp only
        simp only [List.length_append, List.length_take]
        omega

theorem readFullLoop_none_length (script : List ReadEvent) (need : Nat) (acc : List Nat)
    (h : (Conn.readFullLoop script need acc).1.2 = none) :
    ((Conn.readFullLoop script need acc).1.1).length = acc.length + need := by
  induction script generalizing need acc with
  | nil =>
    cases need with
    | zero => simp [Conn.readFullLoop]
    | succ m => simp [Conn.readFullLoop] at h
  | cons ev rest ih =>
    cases need with
    | zero => simp [Conn.readFullLoop]
    | succ m =>
      obtain ⟨bs, e⟩ := ev
      simp only [Conn.readFullLoop] at h ⊢
      by_cases hc : bs.length ≤ m + 1
      · rw [if_pos hc] at h ⊢
        rcases e with _ | err
        · dsimp only at h ⊢
          have h1 := ih (m + 1 - bs.length) (acc ++ bs) h
          simp only [List.length_append] at h1
          omega
        · dsimp only at h
          simp at h
      · rw [if_neg hc] at h ⊢
        dsimp only
        simp only [List.length_append, List.length_take]
        omega

/-- `io.ReadFull` on a scripted connection reports no error exactly when it
filled the whole buffer. -/
theorem readFull_none_iff (c : Conn) (bufLen : Nat) :
    (c.readFull bufLen).1.2 = none ↔ ((c.readFull bufLen).1.1).length = bufLen := by
  have hle := readFullLoop_length_le c.script bufLen []
  simp only [List.length_nil, Nat.zero_add] at hle
  simp only [Conn.readFull]
  split
  · rename_i hfull
    simp only [true_iff]
    omega
  · rename_i hshort
    split
    · rename_i hcase
      constructor
      · intro h
        exact absurd h (by simp)
      · intro h
        omega
    · constructor
      · intro h
        have h1 := readFullLoop_none_length c.script bufLen [] h
        simp only [List.length_nil, Nat.zero_add] at h1
        omega
      · intro h
        exfalso
        omega

/-- C3: on an open Reader with an opener and a valid offset, once the opener
yields a fresh connection at that offset, `ReadAt` leaves the Reader state
untouched (the private connection never persists as Reader state), returns
the bytes obtained from that fresh connection by `io.ReadFull`, reports no
error exactly when it read the full buffer (a short read is an error), and
closes the private connection before returning, success or failure. -/
theorem c3_readAt_full_or_error (hrs : httpReadSeeker W) (w w' : W) (bufLen : Nat)
    (off : Int) (op : W → Int → Except Err Conn × W) (c : Conn)
    (hopen : hrs.closed = false) (hnn : 0 ≤ off) (hlt : hrs.size = -1 ∨ off < hrs.size)
    (hop : hrs.opener = some op) (hcall : op w off = (.ok c, w')) :
    (hrs.readAt w bufLen off).2.1 = hrs ∧
    (hrs.readAt w bufLen off).1.1 = (c.readFull bufLen).1.1 ∧
    ((hrs.readAt w bufLen off).1.2 = none ↔
      ((hrs.readAt w bufLen off).1.1).length = bufLen) ∧
    (hrs.readAt w bufLen off).2.2.2 = some (((c.readFull bufLen).2.close).2) ∧
    (∀ priv, (hrs.readAt w bufLen off).2.2.2 = some priv → priv.isClosed = true) := by
  have hcond : ¬(hrs.size ≠ -1 ∧ hrs.size ≤ off) := by
    rcases hlt with h | h
    · simp [h]
    · intro hh
      omega
  have hred : hrs.readAt w bufLen off
      = ((c.readFull bufLen).1, hrs, w', some (((c.readFull bufLen).2.close).2)) := by
    unfold httpReadSeeker.readAt
    rw [hopen, hop]
    simp only [Bool.false_eq_true, if_false]
    rw [if_neg (by omega), if_neg hcond]
    simp only [hcall]
  rw [hred]
  refine ⟨rfl, rfl, readFull_none_iff c bufLen, rfl, ?_⟩
  intro priv hp
  have : priv = ((c.readFull bufLen).2.close).2 := by
    injection hp with h
    exact h.symm
  rw [this]
  rfl

/-- Witness for c3 at a concrete reader, opener and offset. -/
theorem c3_witness :
    ((newHTTPReadSeeker 10 (some (countingOpen (contentConn [1, 2, 3] 0)))).readAt 0 2 0).2.1
      = newHTTPReadSeeker 10 (some (countingOpen (contentConn [1, 2, 3] 0))) ∧
    ((newHTTPReadSeeker 10 (some (countingOpen (contentConn [1, 2, 3] 0)))).readAt 0 2 0).1.1
      = ((contentConn [1, 2, 3] 0).readFull 2).1.1 ∧
    (((newHTTPReadSeeker 10 (some (countingOpen (contentConn [1, 2, 3] 0)))).readAt 0 2 0).1.2
        = none ↔
      (((newHTTPReadSeeker 10
          (some (countingOpen (contentConn [1, 2, 3] 0)))).readAt 0 2 0).1.1).length = 2) ∧
    ((newHTTPReadSeeker 10 (some (countingOpen (contentConn [1, 2, 3] 0)))).readAt 0 2 0).2.2.2
      = some ((((contentConn [1, 2, 3] 0).readFull 2).2.close).2) ∧
    ((((contentConn [1, 2, 3] 0).readFull 2).2.close).2).isClosed = true :=
  ⟨(c3_readAt_full_or_error
      (newHTTPReadSeeker 10 (some (countingOpen (contentConn [1, 2, 3] 0))))
      0 1 2 0 (countingOpen (contentConn [1, 2, 3] 0)) (contentConn [1, 2, 3] 0)
      rfl (by decide) (Or.inr (by decide)) rfl rfl).1,
   (c3_readAt_full_or_error
      (newHTTPReadSeeker 10 (some (countingOpen (contentConn [1, 2, 3] 0))))
      0 1 2 0 (countingOpen (contentConn [1, 2, 3] 0)) (contentConn [1, 2, 3] 0)
      rfl (by decide) (Or.inr (by decide)) rfl rfl).2.1,
   (c3_readAt_full_or_error
      (newHTTPReadSeeker 10 (some (countingOpen (contentConn [1, 2, 3] 0))))
      0 1 2 0 (countingOpen (contentConn [1, 2, 3] 0)) (contentConn [1, 2, 3] 0)
      rfl (by decide) (Or.inr (by decide)) rfl rfl).2.2.1,
   (c3_readAt_full_or_error
      (newHTTPReadSeeker 10 (some (countingOpen (contentConn [1, 2, 3] 0))))
      0 1 2 0 (countingOpen (contentConn [1, 2, 3] 0)) (contentConn [1, 2, 3] 0)
      rfl (by decide) (Or.inr (by decide)) rfl rfl).2.2.2.1,
   (c3_readAt_full_or_error
      (newHTTPReadSeeker 10 (some (countingOpen (contentConn [1, 2, 3] 0))))
      0 1 2 0 (countingOpen (contentConn [1, 2, 3] 0)) (contentConn [1, 2, 3] 0)
      rfl (by decide) (Or.inr (by decide)) rfl rfl).2.2.2.2
     ((((contentConn [1, 2, 3] 0).readFull 2).2.close).2) rfl⟩

/-- C1: against an opener whose first `k` connections truncate with zero
progress and which then serves the content: for `k ≤ 3`, repeated `Read`
calls return the full intended content with exactly `k + 1` opener calls
(one initial open plus one reconnect per truncation); for `k not less than 4`, the
truncation error surfaces with exactly `4` opener calls, i.e. after `3`
reconnect attempts; and when the reconnect attempt itself fails, the
truncation error surfaces immediately, with the stall counter still at `1`. -/
theorem c1_bounded_truncation_retry (k : Nat) (content : List Nat) (bufLen : Nat) (j : Nat)
    (hk : k ≤ 3) (hb : 0 < bufLen) (hlen : content.length ≤ bufLen) :
    ((readAll (k + 2) (flakyHRS content) (k, 0) bufLen []).1 = (content, none) ∧
     (readAll (k + 2) (flakyHRS content) (k, 0) bufLen []).2.2 = (0, k + 1)) ∧
    ((readAll 4 (flakyHRS content) (j + 4, 0) bufLen []).1 = ([], some .unexpectedEOF) ∧
     (readAll 4 (flakyHRS content) (j + 4, 0) bufLen []).2.2 = (j, 4)) ∧
    (((newHTTPReadSeeker (-1) (some failingReconnectOpen)).read 0 bufLen).1
        = ([], some .unexpectedEOF) ∧
     ((newHTTPReadSeeker (-1) (some failingReconnectOpen)).read 0 bufLen).2.2 = 2 ∧
     ((newHTTPReadSeeker (-1) (some failingReconnectOpen)).read 0 bufLen).2.1.errsWithNoProgress
        = 1) := by
  have hb' : ¬bufLen = 0 := by omega
  refine ⟨?_, ?_, ?_⟩
  · interval_cases k
    all_goals
      simp [readAll, httpReadSeeker.read, httpReadSeeker.reader, httpReadSeeker.readFinish,
        flakyHRS, newHTTPReadSeeker, flakyOpen, truncConn, contentConn, Conn.read, maxRetry,
        hb', hlen]
  · simp [readAll, httpReadSeeker.read, httpReadSeeker.reader, httpReadSeeker.readFinish,
      flakyHRS, newHTTPReadSeeker, flakyOpen, truncConn, contentConn, Conn.read, maxRetry,
      hb', hlen]
  · simp [httpReadSeeker.read, httpReadSeeker.reader, httpReadSeeker.readFinish,
      newHTTPReadSeeker, failingReconnectOpen, truncConn, Conn.read, maxRetry, hb']

/-- Witness for c1 at `k = 2`, `k = 1 + 4`, content `[5, 6, 7]`, buffer 3. -/
theorem c1_witness :
    (((readAll (2 + 2) (flakyHRS [5, 6, 7]) (2, 0) 3 []).1 = ([5, 6, 7], none) ∧
      (readAll (2 + 2) (flakyHRS [5, 6, 7]) (2, 0) 3 []).2.2 = (0, 2 + 1)) ∧
     ((readAll 4 (flakyHRS [5, 6, 7]) (1 + 4, 0) 3 []).1 = ([], some .unexpectedEOF) ∧
      (readAll 4 (flakyHRS [5, 6, 7]) (1 + 4, 0) 3 []).2.2 = (1, 4)) ∧
     (((newHTTPReadSeeker (-1) (some failingReconnectOpen)).read 0 3).1
         = ([], some .unexpectedEOF) ∧
      ((newHTTPReadSeeker (-1) (some failingReconnectOpen)).read 0 3).2.2 = 2 ∧
      ((newHTTPReadSeeker (-1) (some failingReconnectOpen)).read 0 3).2.1.errsWithNoProgress
         = 1)) :=
  c1_bounded_truncation_retry 2 [5, 6, 7] 3 1 (by decide) (by decide) (by decide)

/-! Preservation lemmas for the closed flag and the untouched `ReadAt`
state, used for the release invariant. -/

theorem read_closed (hrs : httpReadSeeker W) (w : W) (bufLen : Nat) :
    ((hrs.read w bufLen).2.1).closed = hrs.closed := by
  unfold httpReadSeeker.read
  split
  · rfl
  · rcases hr : hrs.reader w with ⟨res, hrs1, w1⟩
    have hc : hrs.closed = hrs1.closed := by
      have h1 := congrArg (fun p => (p.2.1).closed) hr
      simpa only [reader_closed] using h1
    rcases res with e | rd
    · exact hc.symm
    · rw [readFinish_closed]
      exact hc.symm

theorem seek_closed_eq (hrs : httpReadSeeker W) (off whence : Int) :
    ((hrs.seek off whence).2).closed = hrs.closed := by
  simp only [httpReadSeeker.seek]
  repeat' split
  all_goals rfl

theorem read_state_of_closed (hrs : httpReadSeeker W) (w : W) (bufLen : Nat)
    (h : hrs.closed = true) : (hrs.read w bufLen).2.1 = hrs := by
  unfold httpReadSeeker.read
  rw [if_pos h]

theorem seek_state_of_closed (hrs : httpReadSeeker W) (off whence : Int)
    (h : hrs.closed = true) : (hrs.seek off whence).2 = hrs := by
  unfold httpReadSeeker.seek
  rw [if_pos h]

theorem readAt_state_eq (hrs : httpReadSeeker W) (w : W) (bufLen : Nat) (off : Int) :
    (hrs.readAt w bufLen off).2.1 = hrs := by
  unfold httpReadSeeker.readAt
  repeat' split
  all_goals rfl

/-- Release status of the connection field: empty, or holding an
already-closed connection. -/
def connReleased (o : Option Conn) : Bool :=
  match o with
  | none => true
  | some c => c.isClosed

/-- The release invariant in the form the code maintains: once the reader is
closed, any connection still referenced by `rc` has itself been closed. -/
def ClosedConnInv (hrs : httpReadSeeker W) : Prop :=
  hrs.closed = true → connReleased hrs.rc = true

/-- Counterexample to C8 as stated: `Close` marks the reader closed and
closes the held connection, but it does not set the connection field to
none — the field still references the (closed) connection afterwards. -/
theorem c8_counterexample :
    ((closeDemo.close).2).closed = true ∧ ((closeDemo.close).2).rc ≠ none := by
  decide

/-- C8 amended: once `closed` is true the owned connection (if any) has been
closed, but the connection field is not necessarily set to none — `Close`
leaves the closed connection in the field.  In this weakened form the
invariant is preserved by every operation. -/
theorem c8_amended_release_invariant (hrs : httpReadSeeker W) (w : W) (bufLen : Nat)
    (off whence : Int) (h : ClosedConnInv hrs) :
    ClosedConnInv ((hrs.read w bufLen).2.1) ∧
    ClosedConnInv ((hrs.seek off whence).2) ∧
    ClosedConnInv ((hrs.close).2) ∧
    ClosedConnInv ((hrs.readAt w bufLen off).2.1) := by
  refine ⟨?_, ?_, ?_, ?_⟩
  · by_cases hc : hrs.closed = true
    · rw [read_state_of_closed hrs w bufLen hc]
      exact h
    · intro hcT
      rw [read_closed] at hcT
      exact absurd hcT hc
  · by_cases hc : hrs.closed = true
    · rw [seek_state_of_closed hrs off whence hc]
      exact h
    · intro hcT
      rw [seek_closed_eq] at hcT
      exact absurd hcT hc
  · by_cases hc : hrs.closed = true
    · unfold httpReadSeeker.close
      rw [if_pos hc]
      exact h
    · rcases hrc : hrs.rc with _ | c
      · intro _
        simp [httpReadSeeker.close, hc, hrc, connReleased]
      · intro _
        simp [httpReadSeeker.close, hc, hrc, connReleased, Conn.close]
  · rw [readAt_state_eq]
    exact h

/-- Witness for the amended c8: after closing a reader that held a live
connection, the connection field holds a closed connection. -/
theorem c8_witness :
    connReleased (((seekDemo.close).2).rc) = true :=
  (c8_amended_release_invariant seekDemo () 4 2 0
    (fun hcl => absurd hcl (by decide))).2.2.1 rfl

/-- Opener that always succeeds with a fixed connection and carries no
state. -/
def pureOpen (c : Conn) : Unit → Int → Except Err Conn × Unit :=
  fun w _ => (.ok c, w)

/-- A reader holding a connection about to truncate with zero progress,
whose opener reconnects successfully. -/
def stallDemo : httpReadSeeker Unit :=
  { size := -1
    offset := 0
    rc := some truncConn
    opener := some (pureOpen (contentConn [1] 0))
    closed := false
    errsWithNoProgress := 0 }

/-- Counterexample to C9 as stated: this `Read` call returns no error — the
zero-progress truncation was absorbed by a successful reconnect — yet the
stall counter is 1, not 0, when the call returns. -/
theorem c9_counterexample :
    (stallDemo.read () 5).1.2 = none ∧
    ((stallDemo.read () 5).2.1).errsWithNoProgress = 1 := by
  decide

/-- The stall counter is cleared whenever the underlying raw read made
progress or reported no error. -/
theorem readFinish_errs_reset (hrs : httpReadSeeker W) (w : W) (bs : List Nat)
    (err : Option Err) (hpr : 0 < bs.length ∨ err = none) :
    ((httpReadSeeker.readFinish hrs w bs err).2.1).errsWithNoProgress = 0 := by
  simp only [httpReadSeeker.readFinish, if_pos hpr]
  split
  · have hlen : 0 < bs.length := by
      rcases hpr with hp | hp
      · exact hp
      · exact absurd hp (by simp)
    rw [if_neg (by omega), if_neg (by omega)]
    split <;> rename_i heq
    · have h1 := congrArg (fun p => (p.2.1).errsWithNoProgress) heq
      simp only [reader_errs] at h1
      simpa using h1.symm
    · have h1 := congrArg (fun p => (p.2.1).errsWithNoProgress) heq
      simp only [reader_errs] at h1
      simpa using h1.symm
  · rfl
  · rfl

/-- C9 amended: a `Read` call that returns at least one byte always leaves
the stall counter at zero, and so does any call whose underlying connection
read made progress or reported no error; but a call that returns no error
because a zero-progress truncation was absorbed by a successful reconnect
leaves the counter incremented rather than cleared. -/
theorem c9_amended_stall_counter_reset (hrs : httpReadSeeker W) (w : W) (bufLen : Nat)
    (c : Conn) :
    ((hrs.read w bufLen).1.1 ≠ [] → ((hrs.read w bufLen).2.1).errsWithNoProgress = 0) ∧
    (hrs.closed = false → hrs.rc = some c →
      (0 < ((c.read bufLen).1.1).length ∨ (c.read bufLen).1.2 = none) →
      ((hrs.read w bufLen).2.1).errsWithNoProgress = 0) := by
  constructor
  · intro hbs
    by_cases hc : hrs.closed = true
    · have hred : hrs.read w bufLen = (([], some .eof), hrs, w) := by
        unfold httpReadSeeker.read
        rw [if_pos hc]
      rw [hred] at hbs
      exact absurd rfl hbs
    · unfold httpReadSeeker.read at hbs ⊢
      rw [if_neg hc] at hbs ⊢
      rcases hr : hrs.reader w with ⟨res, hrs1, w1⟩
      rcases res with e | rd
      · rw [hr] at hbs
        simp at hbs
      · rw [hr] at hbs
        simp only [readFinish_bytes] at hbs
        exact readFinish_errs_reset _ _ _ _ (Or.inl (List.length_pos.mpr hbs))
  · intro hcf hrc hprog
    unfold httpReadSeeker.read
    rw [hcf]
    simp only [Bool.false_eq_true, if_false]
    have hr : hrs.reader w = (.ok c, hrs, w) := by
      unfold httpReadSeeker.reader
      rw [hrc]
    rw [hr]
    exact readFinish_errs_reset _ _ _ _ hprog

/-- A reader holding a connection that delivers a byte, with a nonzero
stall counter about to be cleared. -/
def progressDemo : httpReadSeeker Unit :=
  { size := -1
    offset := 0
    rc := some (contentConn [1] 0)
    opener := some (pureOpen (contentConn [1] 0))
    closed := false
    errsWithNoProgress := 2 }

/-- Witness for the amended c9: a read with progress clears the counter. -/
theorem c9_witness :
    ((progressDemo.read () 5).2.1).errsWithNoProgress = 0 :=
  (c9_amended_stall_counter_reset progressDemo () 5 (contentConn [1] 0)).2
    rfl rfl (Or.inl (by decide))

end HttpReadSeeker
